import Mathlib

/-!
Verification of the story-generation scripts (`src/Python/test.py`,
`src/Python/StoryApp.py`).

The central piece of logic is `extract_image_instructions`, which uses three
Python regular expressions:

  setting_pattern    = (in a [^\.,]+|on a [^\.,]+|at the [^\.,]+)
  characters_pattern = (a [^\.,]+ man|a [^\.,]+ woman|a [^\.,]+ person|a [^\.,]+ creature)
  action_pattern     = (holding a [^\.,]+|standing [^\.,]+|sitting [^\.,]+|lying [^\.,]+)

Every alternative of every pattern has the shape
`literal-prefix [^\.,]+ literal-suffix` (with a possibly empty suffix), so the
Python `re` semantics (leftmost search position wins, alternatives tried in
order at each position, `+` greedy with backtracking, `findall` non-overlapping
continuing at each match end) is embedded below for exactly this shape of
pattern.  Texts are modelled as `List Char` (Python `str` indexing and `len`
count code points, as `List Char` does).
-/

namespace StoryBook

/-- The character class `[^\.,]`: any character except a period or a comma. -/
def isClassChar (c : Char) : Bool := c != '.' && c != ','

/-- One alternative of a pattern: a literal before the `[^\.,]+` body and a
literal after it (empty when the alternative ends with the `+`). -/
structure Alt where
  pre : List Char
  suf : List Char

/-- Greedy backtracking for `[^\.,]+ suf` at the start of `t`: the largest
`j` with `1 ≤ j ≤ n` such that `suf` literally follows the first `j`
characters of `t`.  `n` is the length of the maximal `[^\.,]` run, so the
`j` consumed characters are all in the class. -/
def searchBack (suf t : List Char) : Nat → Option Nat
  | 0 => none
  | j + 1 => if suf.isPrefixOf (t.drop (j + 1)) then some (j + 1) else searchBack suf t j

/-- Match one alternative anchored at the start of `s`, following Python's
greedy `+` with backtracking: the literal prefix, then the longest run of
class characters after which the literal suffix matches. -/
def matchAlt (a : Alt) (s : List Char) : Option (List Char) :=
  if a.pre.isPrefixOf s then
    match searchBack a.suf (s.drop a.pre.length)
        ((s.drop a.pre.length).takeWhile isClassChar).length with
    | some j => some (a.pre ++ (s.drop a.pre.length).take j ++ a.suf)
    | none => none
  else none

/-- Try the alternatives in order at the start of `s` (Python alternation is
ordered: the first alternative that matches wins). -/
def matchAlts (alts : List Alt) (s : List Char) : Option (List Char) :=
  match alts with
  | [] => none
  | a :: rest =>
    match matchAlt a s with
    | some m => some m
    | none => matchAlts rest s

/-- `re.search`: scan start positions left to right and return the first
match found. -/
def pySearch (alts : List Alt) : List Char → Option (List Char)
  | [] => matchAlts alts []
  | c :: rest =>
    match matchAlts alts (c :: rest) with
    | some m => some m
    | none => pySearch alts rest

/-- Worker for `re.findall` with a fuel argument for termination: scan left to
right, and after a match continue at the match end (Python advances one
position past an empty match, hence `max 1`; the patterns here can never
match empty).  One unit of fuel is spent per scan step, and every scan step
consumes at least one character, so fuel `s.length + 1` is never exhausted. -/
def pyFindallAux (alts : List Alt) : Nat → List Char → List (List Char)
  | 0, _ => []
  | _ + 1, [] =>
    match matchAlts alts [] with
    | some m => [m]
    | none => []
  | fuel + 1, c :: rest =>
    match matchAlts alts (c :: rest) with
    | some m => m :: pyFindallAux alts fuel ((c :: rest).drop (max 1 m.length))
    | none => pyFindallAux alts fuel rest

/-- `re.findall`: all non-overlapping matches, left to right.  Since the whole
pattern is one group, Python returns the whole match for each hit. -/
def pyFindall (alts : List Alt) (s : List Char) : List (List Char) :=
  pyFindallAux alts (s.length + 1) s

/-- `setting_pattern = (in a [^\.,]+|on a [^\.,]+|at the [^\.,]+)`. -/
def settingAlts : List Alt :=
  [⟨"in a ".data, []⟩, ⟨"on a ".data, []⟩, ⟨"at the ".data, []⟩]

/-- `characters_pattern = (a [^\.,]+ man|a [^\.,]+ woman|a [^\.,]+ person|a [^\.,]+ creature)`. -/
def charactersAlts : List Alt :=
  [⟨"a ".data, " man".data⟩, ⟨"a ".data, " woman".data⟩,
   ⟨"a ".data, " person".data⟩, ⟨"a ".data, " creature".data⟩]

/-- `action_pattern = (holding a [^\.,]+|standing [^\.,]+|sitting [^\.,]+|lying [^\.,]+)`. -/
def actionAlts : List Alt :=
  [⟨"holding a ".data, []⟩, ⟨"standing ".data, []⟩,
   ⟨"sitting ".data, []⟩, ⟨"lying ".data, []⟩]

/-- Python `sep.join(parts)`. -/
def joinSep (sep : List Char) : List (List Char) → List Char
  | [] => []
  | [x] => x
  | x :: y :: rest => x ++ sep ++ joinSep sep (y :: rest)

/-- Python `s.rsplit(' ', 1)[0]`: everything before the last space, or the
whole string when it holds no space. -/
def rsplit_space_fst (s : List Char) : List Char :=
  match s.reverse.dropWhile (fun c => c != ' ') with
  | [] => s
  | _ :: rest => rest.reverse

/-- The list `instruction_parts` of the source: the first setting match (or
`""`), all character matches joined with `", "`, and the first action match
(or `""`). -/
def instruction_parts (text : List Char) : List (List Char) :=
  [(pySearch settingAlts text).getD [],
   joinSep ", ".data (pyFindall charactersAlts text),
   (pySearch actionAlts text).getD []]

/-- The variable `instruction` of the source, before truncation:
`", ".join(filter(None, instruction_parts))`. -/
def instruction_of (text : List Char) : List Char :=
  joinSep ", ".data ((instruction_parts text).filter (fun p => !p.isEmpty))

/-- `extract_image_instructions(text, max_length=500)` on a string argument:
form `instruction` and truncate it at `max_length`, trimming back to the last
space, when it is longer than `max_length`. -/
def extract_image_instructions (text : List Char) (max_length : Nat := 500) : List Char :=
  let instruction := instruction_of text
  if max_length < instruction.length then rsplit_space_fst (instruction.take max_length)
  else instruction

/-- The function on its full Python input domain: passing `text=None` reaches
`re.search(setting_pattern, None)`, which raises
`TypeError: expected string or bytes-like object`; a string argument never
raises. -/
def extract_image_instructions_checked (text : Option (List Char))
    (max_length : Nat := 500) : Except (List Char) (List Char) :=
  match text with
  | none => .error "TypeError: expected string or bytes-like object".data
  | some t => .ok (extract_image_instructions t max_length)

/-! ### The relational store

`main` creates one table `stories (id INTEGER PRIMARY KEY, story_type, setting,
characters, chat_response, image_url)` and `save_to_database` executes one
INSERT.  The SQL statements the application can issue are modelled as `SqlOp`
(UPDATE and DELETE are included so that their absence from every trace is a
statement, not a vacuity), and the table as a list of rows with the
`INTEGER PRIMARY KEY` auto-assigned id counter. -/

/-- The three console answers collected by `main` (the `story_info` dict). -/
structure StoryInfo where
  story_type : List Char
  setting : List Char
  characters : List Char

/-- One row of the `stories` table. -/
structure StoryRow where
  id : Nat
  story_type : List Char
  setting : List Char
  characters : List Char
  chat_response : List Char
  image_url : List Char

/-- A SQL statement against the `stories` table. -/
inductive SqlOp where
  | createTable
  | insertStory (story_type setting characters chat_response image_url : List Char)
  | updateStory (id : Nat) (story_type setting characters chat_response image_url : List Char)
  | deleteStory (id : Nat)

def SqlOp.isInsert : SqlOp → Bool
  | .insertStory .. => true
  | _ => false

def SqlOp.isUpdate : SqlOp → Bool
  | .updateStory .. => true
  | _ => false

def SqlOp.isDelete : SqlOp → Bool
  | .deleteStory .. => true
  | _ => false

/-- `save_to_database(cursor, story_info, chat_response, image_url)`: the one
INSERT it executes, with the VALUES tuple in the source's order. -/
def save_to_database (story_info : StoryInfo) (chat_response image_url : List Char) : SqlOp :=
  .insertStory story_info.story_type story_info.setting story_info.characters
    chat_response image_url

/-- The `stories` table: its rows and the next auto-assigned row id. -/
structure StoriesTable where
  rows : List StoryRow
  nextId : Nat

/-- SQLite semantics of one INSERT into `stories`: append a row carrying the
next auto-assigned id. -/
def insert_story (db : StoriesTable)
    (story_type setting characters chat_response image_url : List Char) : StoriesTable :=
  { rows := db.rows ++ [⟨db.nextId, story_type, setting, characters, chat_response, image_url⟩],
    nextId := db.nextId + 1 }

/-- Run one SQL statement against the table (CREATE TABLE IF NOT EXISTS on an
existing table changes nothing). -/
def runSql (db : StoriesTable) : SqlOp → StoriesTable
  | .insertStory a b c d e => insert_story db a b c d e
  | .createTable => db
  | .updateStory .. => db
  | .deleteStory .. => db

/-- `SELECT * FROM stories WHERE id = i`. -/
def selectStory (db : StoriesTable) (i : Nat) : Option StoryRow :=
  db.rows.find? (fun r => r.id == i)

/-! ### The API-call wrappers

`get_chatgpt_response` and `create_dalle_image` wrap one call to the OpenAI
client in `try/except`.  The underlying call is modelled as its outcome: an
`Except` that is `.error e` when the call raises (`e` the exception text) and
`.ok response` when it returns.  The `response.choices[0]` / `response.data[0]`
subscript is inside the `try`, so an empty list raises an IndexError that the
same `except` catches.  Each wrapper returns the value the Python function
returns together with the list of lines it prints. -/

structure ChatMessage where
  content : List Char

structure ChatChoice where
  message : ChatMessage

structure ChatResponse where
  choices : List ChatChoice

structure ImageData where
  url : List Char

structure ImagesResponse where
  data : List ImageData

/-- The diagnostic `f"Error in getting response from ChatGPT: {e}"`. -/
def chatgpt_error_msg (e : List Char) : List Char :=
  "Error in getting response from ChatGPT: ".data ++ e

/-- The diagnostic `f"Error in creating image with DALL-E: {e}"`. -/
def dalle_error_msg (e : List Char) : List Char :=
  "Error in creating image with DALL-E: ".data ++ e

/-- `get_chatgpt_response`: on a raised failure print the diagnostic and
return `None`; on a response return `response.choices[0].message.content`,
where an empty `choices` list raises an IndexError caught by the same
handler. -/
def get_chatgpt_response (call : Except (List Char) ChatResponse) :
    Option (List Char) × List (List Char) :=
  match call with
  | .error e => (none, [chatgpt_error_msg e])
  | .ok response =>
    match response.choices with
    | [] => (none, [chatgpt_error_msg "list index out of range".data])
    | choice :: _ => (some choice.message.content, [])

/-- `create_dalle_image`: on a raised failure print the diagnostic and return
`None`; on a response return `response.data[0].url`, where an empty `data`
list raises an IndexError caught by the same handler. -/
def create_dalle_image (call : Except (List Char) ImagesResponse) :
    Option (List Char) × List (List Char) :=
  match call with
  | .error e => (none, [dalle_error_msg e])
  | .ok response =>
    match response.data with
    | [] => (none, [dalle_error_msg "list index out of range".data])
    | d :: _ => (some d.url, [])

/-! ### The main flow

`main` is modelled as a function of the outcomes of its external calls: the
values the two `get_chatgpt_response` calls return (`chat1`, `chat2`) and the
image-generation outcome as a function `dalle` of the instruction string.
The result records the SQL statements executed, whether `create_dalle_image`
was invoked, whether the image was downloaded, and whether the run crashed
with an uncaught exception. -/

/-- Python truthiness of an optional string: `None` and `""` are falsy. -/
def truthy (o : Option (List Char)) : Bool :=
  match o with
  | none => false
  | some s => !s.isEmpty

/-- Observable outcome of one run of `main`. -/
structure MainResult where
  ops : List SqlOp
  imageGenerated : Bool
  downloaded : Bool
  crashed : Bool

/-- One run of `main` after the config/db/console setup:

* `text_response = get_chatgpt_response(client, prompt)` (outcome `chat1`);
* a second prompt is built (it embeds `str(text_response)`, even when that is
  `None`) and `image_prompt = get_chatgpt_response(client, prompt)` is always
  called (outcome `chat2`);
* `image_instructions = extract_image_instructions(image_prompt) if image_prompt else None`;
* `print("\n image text: " + image_instructions)` raises an uncaught
  TypeError when `image_instructions` is `None`;
* `image_url = create_dalle_image(client, image_instructions) if image_instructions else None`;
* `if text_response and image_url:` save, commit, print, download. -/
def mainFlow (story_info : StoryInfo) (chat1 chat2 : Option (List Char))
    (dalle : List Char → Option (List Char)) : MainResult :=
  let text_response := chat1
  let image_instructions : Option (List Char) :=
    match chat2 with
    | none => none
    | some p => if p.isEmpty then none else some (extract_image_instructions p 500)
  match image_instructions with
  | none =>
    { ops := [.createTable], imageGenerated := false, downloaded := false, crashed := true }
  | some instructions =>
    if instructions.isEmpty then
      { ops := [.createTable], imageGenerated := false, downloaded := false, crashed := false }
    else
      let image_url := dalle instructions
      if truthy text_response && truthy image_url then
        { ops := [.createTable,
                  save_to_database story_info (text_response.getD []) (image_url.getD [])],
          imageGenerated := true, downloaded := true, crashed := false }
      else
        { ops := [.createTable], imageGenerated := true, downloaded := false, crashed := false }

/-- Number of INSERT statements in a trace. -/
def countInserts (ops : List SqlOp) : Nat := ops.countP (fun op => op.isInsert)

/-! ### The spec's description of the untruncated extractor output -/

/-- The untruncated instruction as the spec words it: the pieces
[first setting match, all character matches joined with `", "`, first action
match] in this order, empty pieces skipped, joined with `", "` (stated with
the library join `List.intercalate`). -/
def spec_instruction (text : List Char) : List Char :=
  let setting_piece := (pySearch settingAlts text).getD []
  let characters_piece := List.intercalate ", ".data (pyFindall charactersAlts text)
  let action_piece := (pySearch actionAlts text).getD []
  List.intercalate ", ".data
    (([setting_piece, characters_piece, action_piece]).filter (fun p => !p.isEmpty))

/-! ### Helper lemmas -/

/-- Python's `sep.join` agrees with the library `List.intercalate`. -/
theorem joinSep_eq_intercalate (sep : List Char) :
    ∀ l, joinSep sep l = List.intercalate sep l
  | [] => by simp [joinSep, List.intercalate, List.intersperse]
  | [x] => by simp [joinSep, List.intercalate, List.intersperse]
  | x :: y :: rest => by
    have ih := joinSep_eq_intercalate sep (y :: rest)
    simp only [joinSep, List.intercalate, List.intersperse, List.flatten] at ih ⊢
    rw [ih]
    simp [List.append_assoc]

/-- The head of a non-empty `dropWhile` result fails the predicate. -/
theorem dropWhile_head_false {p : Char → Bool} :
    ∀ {l : List Char} {b : Char} {t : List Char}, l.dropWhile p = b :: t → p b = false := by
  intro l
  induction l with
  | nil => intro b t h; simp at h
  | cons x xs ih =>
    intro b t h
    by_cases hp : p x = true
    · rw [List.dropWhile_cons_of_pos hp] at h
      exact ih h
    · rw [List.dropWhile_cons_of_neg hp] at h
      cases h
      simpa using hp

/-- What `s.rsplit(' ', 1)[0]` returns: everything strictly before the last
space when `s` holds a space, and `s` itself otherwise. -/
theorem rsplit_space_spec (s : List Char) :
    (' ' ∈ s → ∃ t, s = rsplit_space_fst s ++ ' ' :: t ∧ ' ' ∉ t) ∧
    (' ' ∉ s → rsplit_space_fst s = s) := by
  cases hd : s.reverse.dropWhile (fun c => c != ' ') with
  | nil =>
    have hr : rsplit_space_fst s = s := by simp [rsplit_space_fst, hd]
    constructor
    · intro hs
      exfalso
      have hall : ∀ c ∈ s.reverse, (c != ' ') = true := List.dropWhile_eq_nil_iff.mp hd
      have h2 := hall ' ' (List.mem_reverse.mpr hs)
      simp at h2
    · intro _
      exact hr
  | cons b t' =>
    have hr : rsplit_space_fst s = t'.reverse := by simp [rsplit_space_fst, hd]
    have hb := @dropWhile_head_false (fun c => c != ' ') s.reverse b t' hd
    have hb' : b = ' ' := by simpa using hb
    have hsplit : s.reverse.takeWhile (fun c => c != ' ') ++ b :: t' = s.reverse := by
      rw [← hd]
      exact List.takeWhile_append_dropWhile _ _
    have hs : s = t'.reverse ++ ' ' :: (s.reverse.takeWhile (fun c => c != ' ')).reverse := by
      subst hb'
      conv_lhs => rw [← s.reverse_reverse, ← hsplit]
      simp
    constructor
    · intro _
      refine ⟨(s.reverse.takeWhile (fun c => c != ' ')).reverse, by rw [hr, ← hs], ?_⟩
      intro hmem
      have hcl := List.mem_takeWhile_imp (List.mem_reverse.mp hmem)
      simp at hcl
    · intro hns
      exfalso
      apply hns
      rw [hs]
      simp

/-- A match produced by the engine: non-empty and made only of characters in
the class `[^\.,]` (when the alternatives' literals are, which holds for all
three patterns of the source). -/
def goodMatch (m : List Char) : Prop := m ≠ [] ∧ ∀ c ∈ m, isClassChar c = true

/-- The alternatives all have a non-empty literal before the class body, and
their literals hold no period and no comma. -/
def goodAlts (alts : List Alt) : Prop :=
  ∀ a ∈ alts, a.pre ≠ [] ∧ (∀ c ∈ a.pre, isClassChar c = true) ∧
    ∀ c ∈ a.suf, isClassChar c = true

theorem goodAlts_setting : goodAlts settingAlts := by
  unfold goodAlts
  decide

theorem goodAlts_characters : goodAlts charactersAlts := by
  unfold goodAlts
  decide

theorem goodAlts_action : goodAlts actionAlts := by
  unfold goodAlts
  decide

/-- Characters taken from within the maximal `takeWhile` run satisfy the
predicate. -/
theorem mem_take_of_le_takeWhile {p : Char → Bool} :
    ∀ (t : List Char) (j : Nat), j ≤ (t.takeWhile p).length →
      ∀ c ∈ t.take j, p c = true := by
  intro t
  induction t with
  | nil =>
    intro j _ c hc
    simp at hc
  | cons x xs ih =>
    intro j hj c hc
    by_cases hp : p x = true
    · rw [List.takeWhile_cons_of_pos hp] at hj
      cases j with
      | zero => simp at hc
      | succ j' =>
        rw [List.take_succ_cons] at hc
        rcases List.mem_cons.mp hc with h | h
        · rw [h]
          exact hp
        · exact ih j' (by simpa using hj) c h
    · rw [List.takeWhile_cons_of_neg hp] at hj
      simp only [List.length_nil, Nat.le_zero] at hj
      rw [hj] at hc
      simp at hc

/-- Everything `searchBack` returns: positive, within the run bound, and
followed by the literal suffix. -/
theorem searchBack_bounds {suf t : List Char} :
    ∀ {n j : Nat}, searchBack suf t n = some j →
      1 ≤ j ∧ j ≤ n ∧ suf.isPrefixOf (t.drop j) = true := by
  intro n
  induction n with
  | zero =>
    intro j h
    simp [searchBack] at h
  | succ n' ih =>
    intro j h
    simp only [searchBack] at h
    by_cases hpre : suf.isPrefixOf (t.drop (n' + 1)) = true
    · rw [if_pos hpre] at h
      injection h with h'
      rw [← h']
      exact ⟨by omega, Nat.le_refl _, hpre⟩
    · rw [if_neg hpre] at h
      obtain ⟨h1, h2, h3⟩ := ih h
      exact ⟨h1, by omega, h3⟩

/-- A successful `matchAlt` against good literals is a good match. -/
theorem matchAlt_good {a : Alt} {s m : List Char} (h : matchAlt a s = some m)
    (ha : a.pre ≠ [] ∧ (∀ c ∈ a.pre, isClassChar c = true) ∧
      ∀ c ∈ a.suf, isClassChar c = true) : goodMatch m := by
  unfold matchAlt at h
  by_cases hp : a.pre.isPrefixOf s = true
  · rw [if_pos hp] at h
    cases hsb : searchBack a.suf (s.drop a.pre.length)
        ((s.drop a.pre.length).takeWhile isClassChar).length with
    | none =>
      rw [hsb] at h
      simp at h
    | some j =>
      rw [hsb] at h
      simp only [Option.some.injEq] at h
      obtain ⟨_, h2, _⟩ := searchBack_bounds hsb
      constructor
      · rw [← h]
        cases hap : a.pre with
        | nil => exact absurd hap ha.1
        | cons x xs => simp
      · intro c hc
        rw [← h] at hc
        rcases List.mem_append.mp hc with hc | hc
        · rcases List.mem_append.mp hc with hc | hc
          · exact ha.2.1 c hc
          · exact mem_take_of_le_takeWhile _ j h2 c hc
        · exact ha.2.2 c hc
  · rw [if_neg hp] at h
    simp at h

/-- A successful ordered-alternation match against good alternatives is a
good match. -/
theorem matchAlts_good : ∀ {alts : List Alt} {s m : List Char},
    matchAlts alts s = some m → goodAlts alts → goodMatch m := by
  intro alts
  induction alts with
  | nil =>
    intro s m h _
    simp [matchAlts] at h
  | cons a rest ih =>
    intro s m h hg
    simp only [matchAlts] at h
    cases hma : matchAlt a s with
    | some m' =>
      rw [hma] at h
      simp only [Option.some.injEq] at h
      rw [← h]
      exact matchAlt_good hma (hg a (by simp))
    | none =>
      rw [hma] at h
      exact ih h (fun b hb => hg b (by simp [hb]))

/-- Every match `re.search` returns over good alternatives is a good match. -/
theorem pySearch_good {alts : List Alt} (hg : goodAlts alts) :
    ∀ {s m : List Char}, pySearch alts s = some m → goodMatch m := by
  intro s
  induction s with
  | nil =>
    intro m h
    exact matchAlts_good h hg
  | cons x xs ih =>
    intro m h
    simp only [pySearch] at h
    cases hma : matchAlts alts (x :: xs) with
    | some m' =>
      rw [hma] at h
      simp only [Option.some.injEq] at h
      rw [← h]
      exact matchAlts_good hma hg
    | none =>
      rw [hma] at h
      exact ih h

/-- Every match the `findall` worker returns over good alternatives is a good
match, for any fuel. -/
theorem pyFindallAux_good {alts : List Alt} (hg : goodAlts alts) :
    ∀ {fuel : Nat} {s : List Char}, ∀ m ∈ pyFindallAux alts fuel s, goodMatch m := by
  intro fuel
  induction fuel with
  | zero =>
    intro s m h
    simp [pyFindallAux] at h
  | succ f ih =>
    intro s m h
    cases s with
    | nil =>
      simp only [pyFindallAux] at h
      cases hma : matchAlts alts [] with
      | some m' =>
        rw [hma] at h
        simp only [List.mem_singleton] at h
        rw [h]
        exact matchAlts_good hma hg
      | none =>
        rw [hma] at h
        simp at h
    | cons x xs =>
      simp only [pyFindallAux] at h
      cases hma : matchAlts alts (x :: xs) with
      | some m' =>
        rw [hma] at h
        rcases List.mem_cons.mp h with h' | h'
        · rw [h']
          exact matchAlts_good hma hg
        · exact ih m h'
      | none =>
        rw [hma] at h
        exact ih m h

/-- Every match `re.findall` returns over good alternatives is a good match. -/
theorem pyFindall_good {alts : List Alt} (hg : goodAlts alts) {s : List Char} :
    ∀ m ∈ pyFindall alts s, goodMatch m :=
  fun m hm => pyFindallAux_good hg m hm

/-- `join` distributes over the concatenation of two non-empty lists. -/
theorem joinSep_append (sep : List Char) :
    ∀ (l1 l2 : List (List Char)), l1 ≠ [] → l2 ≠ [] →
      joinSep sep (l1 ++ l2) = joinSep sep l1 ++ sep ++ joinSep sep l2
  | [], _, h1, _ => absurd rfl h1
  | [x], l2, _, h2 => by
    cases l2 with
    | nil => exact absurd rfl h2
    | cons y ys => simp [joinSep]
  | x :: y :: rest, l2, _, h2 => by
    have ih := joinSep_append sep (y :: rest) l2 (by simp) h2
    calc joinSep sep ((x :: y :: rest) ++ l2)
        = x ++ sep ++ joinSep sep ((y :: rest) ++ l2) := rfl
      _ = x ++ sep ++ (joinSep sep (y :: rest) ++ sep ++ joinSep sep l2) := by rw [ih]
      _ = joinSep sep (x :: y :: rest) ++ sep ++ joinSep sep l2 := by
          simp [joinSep, List.append_assoc]

/-- A join of non-empty strings over a non-empty list is non-empty. -/
theorem joinSep_ne_nil (sep : List Char) :
    ∀ (l : List (List Char)), l ≠ [] → (∀ x ∈ l, x ≠ []) → joinSep sep l ≠ []
  | [], h, _ => absurd rfl h
  | [x], _, hx => by simpa [joinSep] using hx x (by simp)
  | x :: y :: rest, _, hx => by
    have hxne := hx x (by simp)
    simp only [joinSep]
    intro hcontra
    rcases List.append_eq_nil.mp hcontra with ⟨hx0, _⟩
    rcases List.append_eq_nil.mp hx0 with ⟨hx1, _⟩
    exact hxne hx1

/-- A non-empty list is not `isEmpty`. -/
theorem isEmpty_false_of_ne_nil {l : List Char} (h : l ≠ []) : l.isEmpty = false := by
  cases l with
  | nil => exact absurd rfl h
  | cons x xs => rfl

/-- The individual matched pieces that make up the instruction: the setting
match if any, each character match, and the action match if any. -/
def pieces_flat (text : List Char) : List (List Char) :=
  (pySearch settingAlts text).toList ++ pyFindall charactersAlts text ++
    (pySearch actionAlts text).toList

/-- The untruncated instruction is the `", "`-join of the individual matched
pieces: the nested join of the character matches flattens into the outer
join. -/
theorem instruction_of_flat (text : List Char) :
    instruction_of text = joinSep ", ".data (pieces_flat text) := by
  have hchars := pyFindall_good goodAlts_characters (s := text)
  unfold instruction_of instruction_parts pieces_flat
  cases hs : pySearch settingAlts text with
  | some s =>
    have hsne : s ≠ [] := (pySearch_good goodAlts_setting hs).1
    cases ha : pySearch actionAlts text with
    | some a =>
      have hane : a ≠ [] := (pySearch_good goodAlts_action ha).1
      cases hc : pyFindall charactersAlts text with
      | nil =>
        simp [List.filter, isEmpty_false_of_ne_nil hsne, isEmpty_false_of_ne_nil hane, joinSep]
      | cons c cs =>
        have hjne : joinSep ", ".data (c :: cs) ≠ [] := by
          apply joinSep_ne_nil _ _ (by simp)
          intro x hx
          exact (hchars x (by rw [hc]; exact hx)).1
        simp only [Option.getD_some, Option.toList_some]
        rw [joinSep_append ", ".data ([s] ++ c :: cs) [a] (by simp) (by simp),
          joinSep_append ", ".data [s] (c :: cs) (by simp) (by simp)]
        simp [List.filter, isEmpty_false_of_ne_nil hsne, isEmpty_false_of_ne_nil hane,
          isEmpty_false_of_ne_nil hjne, joinSep, List.append_assoc]
    | none =>
      cases hc : pyFindall charactersAlts text with
      | nil =>
        simp [List.filter, isEmpty_false_of_ne_nil hsne, joinSep]
      | cons c cs =>
        have hjne : joinSep ", ".data (c :: cs) ≠ [] := by
          apply joinSep_ne_nil _ _ (by simp)
          intro x hx
          exact (hchars x (by rw [hc]; exact hx)).1
        simp only [Option.getD_some, Option.getD_none, Option.toList_some, Option.toList_none]
        rw [List.append_nil, joinSep_append ", ".data [s] (c :: cs) (by simp) (by simp)]
        simp [List.filter, isEmpty_false_of_ne_nil hsne, isEmpty_false_of_ne_nil hjne, joinSep]
  | none =>
    cases ha : pySearch actionAlts text with
    | some a =>
      have hane : a ≠ [] := (pySearch_good goodAlts_action ha).1
      cases hc : pyFindall charactersAlts text with
      | nil =>
        simp [List.filter, isEmpty_false_of_ne_nil hane, joinSep]
      | cons c cs =>
        have hjne : joinSep ", ".data (c :: cs) ≠ [] := by
          apply joinSep_ne_nil _ _ (by simp)
          intro x hx
          exact (hchars x (by rw [hc]; exact hx)).1
        simp only [Option.getD_some, Option.getD_none, Option.toList_some, Option.toList_none,
          List.nil_append]
        rw [joinSep_append ", ".data (c :: cs) [a] (by simp) (by simp)]
        simp [List.filter, isEmpty_false_of_ne_nil hane, isEmpty_false_of_ne_nil hjne, joinSep]
    | none =>
      cases hc : pyFindall charactersAlts text with
      | nil => simp [List.filter, joinSep]
      | cons c cs =>
        have hjne : joinSep ", ".data (c :: cs) ≠ [] := by
          apply joinSep_ne_nil _ _ (by simp)
          intro x hx
          exact (hchars x (by rw [hc]; exact hx)).1
        simp [List.filter, isEmpty_false_of_ne_nil hjne, joinSep]

/-- A good match holds no comma and no period. -/
theorem no_comma_period_of_good {m : List Char} (h : goodMatch m) :
    ',' ∉ m ∧ '.' ∉ m := by
  constructor <;> intro hmem <;> have hcl := h.2 _ hmem <;> simp [isClassChar] at hcl

/-- Every piece of `pieces_flat` is a good match. -/
theorem pieces_flat_good (text : List Char) :
    ∀ piece ∈ pieces_flat text, goodMatch piece := by
  intro piece hp
  unfold pieces_flat at hp
  rcases List.mem_append.mp hp with hp | hp
  · rcases List.mem_append.mp hp with hp | hp
    · cases hs : pySearch settingAlts text with
      | none => rw [hs] at hp; simp at hp
      | some s =>
        rw [hs] at hp
        simp only [Option.toList_some, List.mem_singleton] at hp
        rw [hp]
        exact pySearch_good goodAlts_setting hs
    · exact pyFindall_good goodAlts_characters piece hp
  · cases ha : pySearch actionAlts text with
    | none => rw [ha] at hp; simp at hp
    | some a =>
      rw [ha] at hp
      simp only [Option.toList_some, List.mem_singleton] at hp
      rw [hp]
      exact pySearch_good goodAlts_action ha

/-- `find?` skips a block in which no element satisfies the predicate. -/
theorem find?_append_none {p : StoryRow → Bool} :
    ∀ {l1 : List StoryRow} (l2 : List StoryRow), (∀ r ∈ l1, p r = false) →
      (l1 ++ l2).find? p = l2.find? p := by
  intro l1
  induction l1 with
  | nil => intro l2 _; rfl
  | cons x xs ih =>
    intro l2 h
    have hx : p x = false := h x (by simp)
    simp only [List.cons_append, List.find?_cons, hx]
    exact ih l2 (fun r hr => h r (by simp [hr]))

/-- Every run of `main` either executes only the CREATE TABLE (and downloads
nothing), or executes CREATE TABLE followed by the one INSERT of
`save_to_database` and downloads the image; the latter only when the first
chat outcome and the image outcome are both truthy. -/
theorem mainFlow_save_characterization (story_info : StoryInfo)
    (chat1 chat2 : Option (List Char)) (dalle : List Char → Option (List Char)) :
    ((mainFlow story_info chat1 chat2 dalle).ops = [.createTable] ∧
      (mainFlow story_info chat1 chat2 dalle).downloaded = false) ∨
    ((mainFlow story_info chat1 chat2 dalle).ops =
        [.createTable, save_to_database story_info (chat1.getD [])
          ((dalle (extract_image_instructions (chat2.getD []) 500)).getD [])] ∧
      (mainFlow story_info chat1 chat2 dalle).downloaded = true ∧
      truthy chat1 = true ∧
      truthy (dalle (extract_image_instructions (chat2.getD []) 500)) = true) := by
  rcases chat2 with _ | p
  · left
    exact ⟨rfl, rfl⟩
  · simp only [mainFlow, Option.getD]
    by_cases hp : p.isEmpty
    · rw [if_pos hp]
      left
      exact ⟨rfl, rfl⟩
    · rw [if_neg hp]
      dsimp only
      by_cases hi : (extract_image_instructions p 500).isEmpty
      · rw [if_pos hi]
        left
        exact ⟨rfl, rfl⟩
      · rw [if_neg hi]
        by_cases hc : (truthy chat1 && truthy (dalle (extract_image_instructions p 500))) = true
        · rw [if_pos hc]
          right
          have hand := Bool.and_eq_true_iff.mp hc
          exact ⟨rfl, rfl, hand.1, hand.2⟩
        · rw [if_neg hc]
          left
          exact ⟨rfl, rfl⟩

/-- When the second chat call returns an absent result, the run crashes at
`print("\n image text: " + image_instructions)`. -/
theorem mainFlow_crash_on_absent_second_chat (story_info : StoryInfo)
    (chat1 : Option (List Char)) (dalle : List Char → Option (List Char)) :
    (mainFlow story_info chat1 none dalle).crashed = true := rfl

/-! ### Claim theorems -/

/-- Claim C5, counterexample: with the first chat call failing (`None`), the
second chat call succeeding with "in a forest", and the image call
succeeding, `main` still invokes `create_dalle_image` — the claim that a
failed chat call generates no image is false. -/
theorem c5_counterexample :
    (mainFlow ⟨"t".data, "s".data, "c".data⟩ none (some "in a forest".data)
        (fun _ => some "http://u".data)).imageGenerated = true := rfl

/-- Claim C5, amended: an absent (or empty) first-chat result or an
always-absent image result does cause the save/download block to be skipped
(no INSERT, no download), and an absent second-chat result crashes the run
at the diagnostic print (an uncaught TypeError) instead of completing it;
but the second chat call and the image generation are not skipped. -/
theorem c5_amended (story_info : StoryInfo) (chat1 chat2 : Option (List Char))
    (dalle : List Char → Option (List Char)) :
    ((truthy chat1 = false ∨ ∀ s, dalle s = none) →
      countInserts (mainFlow story_info chat1 chat2 dalle).ops = 0 ∧
      (mainFlow story_info chat1 chat2 dalle).downloaded = false) ∧
    (chat2 = none → (mainFlow story_info chat1 chat2 dalle).crashed = true) := by
  constructor
  · intro h
    rcases mainFlow_save_characterization story_info chat1 chat2 dalle with
      ⟨hops, hdl⟩ | ⟨_, _, hc1, hc2⟩
    · rw [hops, hdl]
      exact ⟨rfl, rfl⟩
    · exfalso
      rcases h with h1 | h2
      · rw [hc1] at h1
        simp at h1
      · rw [h2] at hc2
        simp [truthy] at hc2
  · intro h2
    rw [h2]
    exact mainFlow_crash_on_absent_second_chat story_info chat1 dalle

/-- Witness for C5 (amended) at a concrete run in which both chat calls fail. -/
theorem c5_amended_witness :
    (countInserts (mainFlow ⟨"t".data, "s".data, "c".data⟩ none none
        (fun _ => none)).ops = 0 ∧
      (mainFlow ⟨"t".data, "s".data, "c".data⟩ none none (fun _ => none)).downloaded = false) ∧
    (mainFlow ⟨"t".data, "s".data, "c".data⟩ none none (fun _ => none)).crashed = true :=
  ⟨(c5_amended ⟨"t".data, "s".data, "c".data⟩ none none (fun _ => none)).1 (Or.inl rfl),
    (c5_amended ⟨"t".data, "s".data, "c".data⟩ none none (fun _ => none)).2 rfl⟩

/-- Claim C6: both wrappers turn a raised failure into a printed diagnostic
and an absent result, and on success the chat wrapper returns the completion
text of the first choice and the image wrapper the URL of the first image. -/
theorem c6_wrappers (e : List Char) (r : ChatResponse) (c : ChatChoice)
    (rd : ImagesResponse) (d : ImageData)
    (hc : r.choices.head? = some c) (hd : rd.data.head? = some d) :
    get_chatgpt_response (.error e) = (none, [chatgpt_error_msg e]) ∧
    get_chatgpt_response (.ok r) = (some c.message.content, []) ∧
    create_dalle_image (.error e) = (none, [dalle_error_msg e]) ∧
    create_dalle_image (.ok rd) = (some d.url, []) := by
  refine ⟨rfl, ?_, rfl, ?_⟩
  · cases hr : r.choices with
    | nil =>
      rw [hr] at hc
      simp at hc
    | cons x xs =>
      rw [hr] at hc
      have hx : x = c := by simpa using hc
      subst hx
      simp [get_chatgpt_response, hr]
  · cases hrd : rd.data with
    | nil =>
      rw [hrd] at hd
      simp at hd
    | cons x xs =>
      rw [hrd] at hd
      have hx : x = d := by simpa using hd
      subst hx
      simp [create_dalle_image, hrd]

/-- Witness for C6 at a one-choice chat response and a one-image response. -/
theorem c6_wrappers_witness :
    get_chatgpt_response (.error "boom".data) = (none, [chatgpt_error_msg "boom".data]) ∧
    get_chatgpt_response (.ok ⟨[⟨⟨"hi".data⟩⟩]⟩) = (some "hi".data, []) ∧
    create_dalle_image (.error "boom".data) = (none, [dalle_error_msg "boom".data]) ∧
    create_dalle_image (.ok ⟨[⟨"http://u".data⟩]⟩) = (some "http://u".data, []) :=
  c6_wrappers "boom".data ⟨[⟨⟨"hi".data⟩⟩]⟩ ⟨⟨"hi".data⟩⟩ ⟨[⟨"http://u".data⟩]⟩
    ⟨"http://u".data⟩ rfl rfl

/-- Claim C8, counterexample: a run in which the first chat call fails
performs zero INSERTs, not exactly one. -/
theorem c8_counterexample :
    countInserts (mainFlow ⟨"t".data, "s".data, "c".data⟩ none
        (some "in a forest".data) (fun _ => none)).ops ≠ 1 := by decide

/-- Claim C8, amended: every run of `main` performs at most one INSERT (one
when the chat text and image URL are both present, none otherwise), and no
run ever issues an UPDATE or a DELETE: the store is write-only. -/
theorem c8_amended (story_info : StoryInfo) (chat1 chat2 : Option (List Char))
    (dalle : List Char → Option (List Char)) :
    countInserts (mainFlow story_info chat1 chat2 dalle).ops ≤ 1 ∧
    ∀ op ∈ (mainFlow story_info chat1 chat2 dalle).ops,
      op.isUpdate = false ∧ op.isDelete = false := by
  rcases mainFlow_save_characterization story_info chat1 chat2 dalle with
    ⟨hops, _⟩ | ⟨hops, _, _, _⟩ <;>
    rw [hops] <;>
    simp [countInserts, save_to_database, List.countP_cons, SqlOp.isInsert,
      SqlOp.isUpdate, SqlOp.isDelete]

/-- Claim C9: inserting a record via `save_to_database` and reading it back
by its row id returns exactly the five stored fields unchanged. -/
theorem c9_roundtrip (db : StoriesTable) (story_info : StoryInfo)
    (chat_response image_url : List Char)
    (h : ∀ r ∈ db.rows, r.id < db.nextId) :
    selectStory (runSql db (save_to_database story_info chat_response image_url)) db.nextId =
      some ⟨db.nextId, story_info.story_type, story_info.setting, story_info.characters,
        chat_response, image_url⟩ := by
  simp only [save_to_database, runSql, insert_story, selectStory]
  rw [find?_append_none _ (fun r hr => ?_)]
  · simp [List.find?_cons]
  · have hlt := h r hr
    simp only [beq_eq_false_iff_ne, ne_eq]
    omega

/-- Claim C10: every piece matched by the three patterns holds no comma and
no period (the `[^\.,]+` body and the literal prefixes/suffixes exclude
both), so the untruncated output is a `", "`-join of comma-free,
period-free pieces: every comma in it comes from a join separator. -/
theorem c10_matches_have_no_comma_or_period (text : List Char) :
    (∀ m, pySearch settingAlts text = some m → ',' ∉ m ∧ '.' ∉ m) ∧
    (∀ m ∈ pyFindall charactersAlts text, ',' ∉ m ∧ '.' ∉ m) ∧
    (∀ m, pySearch actionAlts text = some m → ',' ∉ m ∧ '.' ∉ m) ∧
    ∃ L, (∀ piece ∈ L, ',' ∉ piece ∧ '.' ∉ piece) ∧
      instruction_of text = joinSep ", ".data L := by
  refine ⟨fun m hm => no_comma_period_of_good (pySearch_good goodAlts_setting hm),
    fun m hm => no_comma_period_of_good (pyFindall_good goodAlts_characters m hm),
    fun m hm => no_comma_period_of_good (pySearch_good goodAlts_action hm),
    pieces_flat text,
    fun piece hp => no_comma_period_of_good (pieces_flat_good text piece hp),
    instruction_of_flat text⟩

/-- Witness for C10 at the text "in a forest", whose setting match is the
whole text. -/
theorem c10_matches_have_no_comma_or_period_witness :
    ',' ∉ "in a forest".data ∧ '.' ∉ "in a forest".data :=
  (c10_matches_have_no_comma_or_period "in a forest".data).1 "in a forest".data rfl

/-- Witness for C9: a round trip through an empty table. -/
theorem c9_roundtrip_witness :
    selectStory (runSql ⟨[], 0⟩ (save_to_database ⟨"fantasy".data, "a castle".data,
        "Alice and Bob".data⟩ "Once upon a time".data "http://img".data)) 0 =
      some ⟨0, "fantasy".data, "a castle".data, "Alice and Bob".data,
        "Once upon a time".data, "http://img".data⟩ :=
  c9_roundtrip ⟨[], 0⟩ ⟨"fantasy".data, "a castle".data, "Alice and Bob".data⟩
    "Once upon a time".data "http://img".data (by simp)

/-- Claim C1: for every input text, the untruncated output of
`extract_image_instructions` equals the `", "`-join of the non-empty pieces
among [first setting match, all character matches joined with `", "`, first
action match], in that order, empty pieces skipped. -/
theorem c1_untruncated_output (text : List Char) :
    instruction_of text = spec_instruction text := by
  simp only [instruction_of, spec_instruction, instruction_parts, joinSep_eq_intercalate]

/-- Claim C2: when the joined instruction is longer than `max_length`, the
returned string (1) has length at most `max_length`, (2) is a prefix of the
untruncated instruction, (3) when a space occurs among the first `max_length`
characters it is that prefix trimmed back to strictly before the last such
space (so it never ends mid-word), and (4) when no space occurs there it is
exactly the whole `max_length`-character prefix. -/
theorem c2_truncation (text : List Char) (max_length : Nat)
    (h : max_length < (instruction_of text).length) :
    (extract_image_instructions text max_length).length ≤ max_length ∧
    extract_image_instructions text max_length <+: instruction_of text ∧
    (' ' ∈ (instruction_of text).take max_length →
      ∃ t, (instruction_of text).take max_length =
        extract_image_instructions text max_length ++ ' ' :: t ∧ ' ' ∉ t) ∧
    (' ' ∉ (instruction_of text).take max_length →
      extract_image_instructions text max_length = (instruction_of text).take max_length) := by
  have hpre : (instruction_of text).take max_length <+: instruction_of text :=
    ⟨(instruction_of text).drop max_length, List.take_append_drop _ _⟩
  have hlenP : ((instruction_of text).take max_length).length = max_length := by
    rw [List.length_take]
    omega
  have he : extract_image_instructions text max_length =
      rsplit_space_fst ((instruction_of text).take max_length) := by
    simp only [extract_image_instructions]
    rw [if_pos h]
  by_cases hs : ' ' ∈ (instruction_of text).take max_length
  · obtain ⟨t, ht, hnt⟩ := (rsplit_space_spec _).1 hs
    rw [he]
    refine ⟨?_, ?_, fun _ => ⟨t, ht, hnt⟩, fun hn => absurd hs hn⟩
    · have hl := hlenP
      rw [ht] at hl
      simp only [List.length_append, List.length_cons] at hl
      omega
    · exact List.IsPrefix.trans ⟨' ' :: t, ht.symm⟩ hpre
  · have hr := (rsplit_space_spec ((instruction_of text).take max_length)).2 hs
    rw [he, hr]
    exact ⟨le_of_eq hlenP, hpre, fun hmem => absurd hmem hs, fun _ => rfl⟩

/-- Witness for C2 at the text "in a red fox den" and `max_length = 10`: the
instruction is "in a red fox den" (16 characters) and the output is
"in a red". -/
theorem c2_truncation_witness :
    10 < (instruction_of "in a red fox den".data).length ∧
    ((extract_image_instructions "in a red fox den".data 10).length ≤ 10 ∧
      extract_image_instructions "in a red fox den".data 10 <+:
        instruction_of "in a red fox den".data ∧
      (' ' ∈ (instruction_of "in a red fox den".data).take 10 →
        ∃ t, (instruction_of "in a red fox den".data).take 10 =
          extract_image_instructions "in a red fox den".data 10 ++ ' ' :: t ∧ ' ' ∉ t) ∧
      (' ' ∉ (instruction_of "in a red fox den".data).take 10 →
        extract_image_instructions "in a red fox den".data 10 =
          (instruction_of "in a red fox den".data).take 10)) :=
  ⟨by decide, c2_truncation "in a red fox den".data 10 (by decide)⟩

/-- Claim C3, counterexample: `extract_image_instructions(None)` does not
return a string: it raises a TypeError inside `re.search`. -/
theorem c3_counterexample :
    extract_image_instructions_checked none 500 =
      .error "TypeError: expected string or bytes-like object".data := rfl

/-- Claim C3, amended: on every string input (including the empty string) and
every maximum length, `extract_image_instructions` returns a string and never
fails; only the absent (`None`) input raises. -/
theorem c3_amended_total_on_strings (text : List Char) (max_length : Nat) :
    extract_image_instructions_checked (some text) max_length =
      .ok (extract_image_instructions text max_length) := rfl

/-- Claim C4, counterexample: on the text
"A tall woman standing near a castle in a dark forest holding a lantern."
with `max_length = 500` the function does not return
"in a dark forest, a tall woman, holding a lantern": the greedy `[^\.,]+`
and the capitalised "A tall woman" give a different result. -/
theorem c4_counterexample :
    extract_image_instructions
        "A tall woman standing near a castle in a dark forest holding a lantern.".data 500 ≠
      "in a dark forest, a tall woman, holding a lantern".data := by decide

/-- Claim C4, amended: on that text the setting match is the greedy
"in a dark forest holding a lantern", the character pattern finds nothing
(the text has "A tall woman" with a capital A), and the action match is the
greedy "standing near a castle in a dark forest holding a lantern"; the
output joins the two non-empty pieces with `", "`. -/
theorem c4_amended :
    extract_image_instructions
        "A tall woman standing near a castle in a dark forest holding a lantern.".data 500 =
      ("in a dark forest holding a lantern, " ++
        "standing near a castle in a dark forest holding a lantern").data := by decide

/-- Claim C7: when no pattern matches any substring of the text, the function
returns the empty string. -/
theorem c7_no_match_empty (text : List Char) (max_length : Nat)
    (h1 : pySearch settingAlts text = none)
    (h2 : pyFindall charactersAlts text = [])
    (h3 : pySearch actionAlts text = none) :
    extract_image_instructions text max_length = [] := by
  unfold extract_image_instructions instruction_of instruction_parts
  rw [h1, h2, h3]
  simp [joinSep]

/-- Witness for C7 at the concrete text "hello". -/
theorem c7_no_match_empty_witness :
    (pySearch settingAlts "hello".data = none ∧
      pyFindall charactersAlts "hello".data = [] ∧
      pySearch actionAlts "hello".data = none) ∧
    extract_image_instructions "hello".data 500 = [] :=
  ⟨⟨rfl, rfl, rfl⟩, c7_no_match_empty "hello".data 500 rfl rfl rfl⟩

end StoryBook
